import Mathlib

/-!
# lnd-node-graph: the graph builder and the field schema

A shallow embedding of `main.go`: the records of the node-graph format, the
body of `buildGraph` (the node pass, the edge pass and the three upstream
steps that may fail), `isEdgeOrphaned`, and the constant served by the
`/api/graph/fields` handler.

Modelling conventions.

* A Go `string` is a Lean `String`; a Go slice is a `List`, and `append(s, x)`
  is `s ++ [x]`.
* `uint64` values are `Nat`; the conversion `uint64(x)` of an integer of at
  most 64 bits is `x % 2^64`.  The protobuf fields `LastUpdate` and
  `Capacity` are declared outside this repository, so they are kept as `Int`
  and every numeric statement names the range it needs.
* `map[string]string` is an association list; the only operations the code
  uses are the assignment `m[k] = v` and the lookup `_, ok := m[k]`.
* An upstream step (connection setup, `GetInfo`, `DescribeGraph`) is the
  outcome it has when it is reached: `Except GoError _`.
* `strconv.FormatUint(_, 10)` is the standard library; it is modelled by the
  usual repeated division by ten.
-/

namespace LndNodeGraph

/-! ## Records -/

/-- The Go type `NetworkEdge`. -/
structure NetworkEdge where
  Id : String
  Source : String
  Target : String
  Mainstat : Nat
  Secondarystat : Nat
deriving DecidableEq

/-- The Go type `NetworkNode`. -/
structure NetworkNode where
  Id : String
  Title : String
  Subtitle : Nat
  Mainstat : String
  Color : String
deriving DecidableEq

/-- The Go type `NetworkGraph`. -/
structure NetworkGraph where
  Edges : List NetworkEdge
  Nodes : List NetworkNode
deriving DecidableEq

/-- The fields of `lnrpc.LightningNode` that `buildGraph` reads. -/
structure LightningNode where
  LastUpdate : Int
  PubKey : String
  Alias : String
  Color : String
deriving DecidableEq

/-- The fields of `lnrpc.ChannelEdge` that `buildGraph` reads. -/
structure ChannelEdge where
  ChannelId : Nat
  Node1Pub : String
  Node2Pub : String
  Capacity : Int
deriving DecidableEq

/-- The fields of `lnrpc.ChannelGraph` that `buildGraph` reads. -/
structure ChannelGraph where
  Nodes : List LightningNode
  Edges : List ChannelEdge
deriving DecidableEq

/-- The field of `lnrpc.GetInfoResponse` that `buildGraph` reads. -/
structure GetInfoResponse where
  IdentityPubkey : String
deriving DecidableEq

/-- A Go `error` value that is not nil, identified by its message. -/
abbrev GoError := String

/-- The connection returned by `getGrpcClient`; `buildGraph` only passes it on. -/
structure ClientConn where
  target : String
deriving DecidableEq

/-! ## Machine integers and the Go map -/

/-- The Go conversion `uint64(x)` of an integer of at most 64 bits. -/
def uint64 (x : Int) : Nat := (x % 18446744073709551616).toNat

/-- A Go `map[string]string`, as an association list. -/
abbrev GoMap := List (String × String)

/-- The assignment `m[k] = v`. -/
def GoMap.set (m : GoMap) (k v : String) : GoMap :=
  (k, v) :: m.filter (fun kv => kv.1 != k)

/-- The `ok` result of the lookup `_, ok := m[k]`. -/
def GoMap.has (m : GoMap) (k : String) : Bool :=
  m.any (fun kv => kv.1 == k)

/-! ## strconv.FormatUint in base ten -/

/-- The character of the decimal digit `d`, that is `"0123456789"[d]`. -/
def digitChar (d : Nat) : Char := Char.ofNat (48 + d)

/-- Writes the decimal digits of `u` in front of `acc`, least significant digit
first; `fuel` bounds the number of digits. -/
def formatBits : Nat → Nat → List Char → List Char
  | 0, _, acc => acc
  | fuel + 1, u, acc =>
    if u < 10 then digitChar u :: acc
    else formatBits fuel (u / 10) (digitChar (u % 10) :: acc)

/-- The call `strconv.FormatUint(i, 10)`. -/
def FormatUint (i : Nat) : String := String.mk (formatBits (i + 1) i [])

/-- The value of a decimal digit character. -/
def digitVal (c : Char) : Nat := c.toNat - 48

/-- Reads a string of decimal digits; `none` when the string is empty or holds
another character. -/
def parseDecimal (s : String) : Option Nat :=
  if s.data = [] then none
  else if s.data.all Char.isDigit then
    some (s.data.foldl (fun acc c => acc * 10 + digitVal c) 0)
  else none

/-! ## buildGraph -/

/-- The condition of line 150: the record is skipped when it holds. -/
def skipNode (node : LightningNode) : Bool :=
  decide (node.LastUpdate ≤ 0) && node.Alias == "" &&
    (node.Color == "" || node.Color == "#000000")

/-- Lines 153 to 163: the node built for a record that is not skipped. -/
def mkGraphNode (nodeInfo : GetInfoResponse) (node : LightningNode) : NetworkNode :=
  let graphNode : NetworkNode :=
    { Id := node.PubKey, Title := node.Alias, Subtitle := uint64 node.LastUpdate,
      Mainstat := "", Color := "" }
  let graphNode : NetworkNode :=
    if node.Color != "" then { graphNode with Color := node.Color } else graphNode
  let graphNode : NetworkNode :=
    if nodeInfo.IdentityPubkey == node.PubKey then { graphNode with Mainstat := "true" }
    else graphNode
  graphNode

/-- One iteration of the loop over `networkGraph.Nodes` (lines 149 to 166), on
the pair of `parsedGraph` and `graphNodeCache`. -/
def nodeBody (nodeInfo : GetInfoResponse) (st : NetworkGraph × GoMap)
    (node : LightningNode) : NetworkGraph × GoMap :=
  if skipNode node then st
  else
    ({ st.1 with Nodes := st.1.Nodes ++ [mkGraphNode nodeInfo node] },
      st.2.set node.PubKey "")

/-- The function `isEdgeOrphaned`. -/
def isEdgeOrphaned (graphNodeCache : GoMap) (edge : ChannelEdge) : Bool :=
  let node1Ok := graphNodeCache.has edge.Node1Pub
  let node2Ok := graphNodeCache.has edge.Node2Pub
  if node1Ok && node2Ok then false else true

/-- Lines 172 to 177: the edge built for a channel that is not orphaned. -/
def mkGraphEdge (edge : ChannelEdge) : NetworkEdge :=
  { Id := FormatUint edge.ChannelId, Source := edge.Node1Pub, Target := edge.Node2Pub,
    Mainstat := uint64 edge.Capacity, Secondarystat := 0 }

/-- One iteration of the loop over `networkGraph.Edges` (lines 168 to 179). -/
def edgeBody (graphNodeCache : GoMap) (parsedGraph : NetworkGraph)
    (edge : ChannelEdge) : NetworkGraph :=
  if isEdgeOrphaned graphNodeCache edge then parsedGraph
  else { parsedGraph with Edges := parsedGraph.Edges ++ [mkGraphEdge edge] }

/-- The loop over `networkGraph.Nodes`, from the empty graph and the empty map. -/
def nodePass (nodeInfo : GetInfoResponse) (nodes : List LightningNode) :
    NetworkGraph × GoMap :=
  nodes.foldl (nodeBody nodeInfo) ({ Edges := [], Nodes := [] }, [])

/-- The success branch of `buildGraph` (lines 149 to 180): both loops. -/
def buildPasses (nodeInfo : GetInfoResponse) (networkGraph : ChannelGraph) : NetworkGraph :=
  let st := nodePass nodeInfo networkGraph.Nodes
  networkGraph.Edges.foldl (edgeBody st.2) st.1

/-- The function `buildGraph`: the returned graph and the returned error (`none`
is Go's nil).  The three arguments are the outcomes of `getGrpcClient`,
`GetInfo` and `DescribeGraph`. -/
def buildGraph (con : Except GoError ClientConn) (getInfo : Except GoError GetInfoResponse)
    (describeGraph : Except GoError ChannelGraph) : NetworkGraph × Option GoError :=
  match con with
  | .error err => ({ Edges := [], Nodes := [] }, some err)
  | .ok _ =>
    let parsedGraph : NetworkGraph := { Edges := [], Nodes := [] }
    match getInfo with
    | .error err => ({ Edges := [], Nodes := [] }, some err)
    | .ok nodeInfo =>
      match describeGraph with
      | .ok networkGraph => (buildPasses nodeInfo networkGraph, none)
      | .error err => (parsedGraph, some err)

/-! ## The field schema -/

/-- The handler-local Go type `field`. -/
structure field where
  Field_name : String
  Field_type : String
deriving DecidableEq

/-- The handler-local Go type `nodefield`. -/
structure nodefield where
  Edges_fields : List field
  Nodes_fields : List field
deriving DecidableEq

/-- The literal `fieldStructure` of the `/api/graph/fields` handler. -/
def fieldStructure : nodefield :=
  { Edges_fields :=
      [ { Field_name := "id", Field_type := "string" },
        { Field_name := "source", Field_type := "string" },
        { Field_name := "target", Field_type := "string" },
        { Field_name := "mainstat", Field_type := "string" },
        { Field_name := "secondarystat", Field_type := "number" } ],
    Nodes_fields :=
      [ { Field_name := "id", Field_type := "string" },
        { Field_name := "title", Field_type := "string" },
        { Field_name := "subtitle", Field_type := "number" },
        { Field_name := "mainstat", Field_type := "string" },
        { Field_name := "color", Field_type := "string" } ] }

/-- What the handler reads of an `http.Request`: nothing; the record stands for
any request. -/
structure Request where
  method : String
  url : String
  body : String
deriving DecidableEq

/-- The value that the `/api/graph/fields` handler marshals for a request. -/
def fieldsHandler (_r : Request) : nodefield := fieldStructure

/-! ## Vocabulary of the specification -/

/-- The placeholder rule in the words of the specification: the timestamp is at
most zero, the alias is empty, and the colour is empty or the sentinel. -/
def Stub (p : LightningNode) : Prop :=
  p.LastUpdate ≤ 0 ∧ p.Alias = "" ∧ (p.Color = "" ∨ p.Color = "#000000")

instance instDecidableStub : DecidablePred Stub :=
  fun p => inferInstanceAs
    (Decidable (p.LastUpdate ≤ 0 ∧ p.Alias = "" ∧ (p.Color = "" ∨ p.Color = "#000000")))

/-- The identifiers of the nodes emitted by the node pass. -/
def emittedIds (nodeInfo : GetInfoResponse) (peers : List LightningNode) : List String :=
  (nodePass nodeInfo peers).1.Nodes.map NetworkNode.Id

/-- The identity keys of the peer records that are not stubs, in input order:
the filtered node set in the words of the specification. -/
def nonStubKeys (peers : List LightningNode) : List String :=
  (peers.filter (fun p => decide (¬ Stub p))).map LightningNode.PubKey

/-- An orphaned channel in the words of the specification: a channel record that
refers to at least one identity key absent from the filtered node set. -/
def OrphanedChannel (peers : List LightningNode) (c : ChannelEdge) : Prop :=
  c.Node1Pub ∉ nonStubKeys peers ∨ c.Node2Pub ∉ nonStubKeys peers

instance instDecidableOrphanedChannel (peers : List LightningNode) :
    DecidablePred (OrphanedChannel peers) :=
  fun c => inferInstanceAs
    (Decidable (c.Node1Pub ∉ nonStubKeys peers ∨ c.Node2Pub ∉ nonStubKeys peers))

/-- The graph that `buildGraph` returns when the three upstream steps succeed. -/
def builtGraph (con : ClientConn) (nodeInfo : GetInfoResponse) (peers : List LightningNode)
    (chans : List ChannelEdge) : NetworkGraph :=
  (buildGraph (.ok con) (.ok nodeInfo) (.ok { Nodes := peers, Edges := chans })).1

/-! ## Sample inputs -/

/-- The stub record of the scenario. -/
def peerA : LightningNode := { LastUpdate := 0, PubKey := "A", Alias := "", Color := "" }

/-- The named record of the scenario. -/
def peerB : LightningNode := { LastUpdate := 100, PubKey := "B", Alias := "Bob", Color := "#fff" }

/-- A second record under the identity key of `peerB`. -/
def peerB2 : LightningNode := { LastUpdate := 200, PubKey := "B", Alias := "Bobby", Color := "" }

/-- The orphaned channel of the scenario. -/
def chan5 : ChannelEdge := { ChannelId := 5, Node1Pub := "A", Node2Pub := "B", Capacity := 1000 }

/-- The self-loop channel of the scenario. -/
def chan6 : ChannelEdge := { ChannelId := 6, Node1Pub := "B", Node2Pub := "B", Capacity := 2000 }

/-! ## The Go map -/

theorem GoMap.has_nil (k : String) : GoMap.has [] k = false := rfl

theorem GoMap.has_set (m : GoMap) (k v q : String) :
    (m.set k v).has q = true ↔ q = k ∨ m.has q = true := by
  unfold GoMap.set GoMap.has
  simp only [List.any_cons, Bool.or_eq_true, beq_iff_eq, List.any_eq_true, List.mem_filter,
    bne_iff_ne, ne_eq]
  constructor
  · rintro (h | ⟨kv, ⟨hm, _⟩, hq⟩)
    · exact Or.inl h.symm
    · exact Or.inr ⟨kv, hm, hq⟩
  · rintro (h | ⟨kv, hm, hq⟩)
    · exact Or.inl h.symm
    · by_cases hk : q = k
      · exact Or.inl hk.symm
      · exact Or.inr ⟨kv, ⟨hm, by rw [hq]; exact hk⟩, hq⟩

/-! ## The node pass -/

theorem nodeBody_skip (nodeInfo : GetInfoResponse) (st : NetworkGraph × GoMap)
    (node : LightningNode) (h : skipNode node = true) : nodeBody nodeInfo st node = st := by
  simp [nodeBody, h]

theorem nodeBody_keep (nodeInfo : GetInfoResponse) (st : NetworkGraph × GoMap)
    (node : LightningNode) (h : skipNode node = false) :
    nodeBody nodeInfo st node =
      ({ st.1 with Nodes := st.1.Nodes ++ [mkGraphNode nodeInfo node] },
        st.2.set node.PubKey "") := by
  simp [nodeBody, h]

theorem foldl_nodeBody_nodes (nodeInfo : GetInfoResponse) (nodes : List LightningNode) :
    ∀ st : NetworkGraph × GoMap,
      (nodes.foldl (nodeBody nodeInfo) st).1.Nodes =
        st.1.Nodes ++ (nodes.filter (fun p => !skipNode p)).map (mkGraphNode nodeInfo) := by
  induction nodes with
  | nil => intro st; simp
  | cons p ps ih =>
    intro st
    rw [List.foldl_cons, ih]
    cases h : skipNode p
    · simp [nodeBody_keep _ _ _ h, h]
    · simp [nodeBody_skip _ _ _ h, h]

theorem foldl_nodeBody_edges (nodeInfo : GetInfoResponse) (nodes : List LightningNode) :
    ∀ st : NetworkGraph × GoMap,
      (nodes.foldl (nodeBody nodeInfo) st).1.Edges = st.1.Edges := by
  induction nodes with
  | nil => intro st; rfl
  | cons p ps ih =>
    intro st
    rw [List.foldl_cons, ih]
    cases h : skipNode p
    · simp [nodeBody_keep _ _ _ h]
    · simp [nodeBody_skip _ _ _ h]

theorem foldl_nodeBody_cache (nodeInfo : GetInfoResponse) (nodes : List LightningNode)
    (k : String) :
    ∀ st : NetworkGraph × GoMap,
      (nodes.foldl (nodeBody nodeInfo) st).2.has k = true ↔
        st.2.has k = true ∨ ∃ p ∈ nodes, skipNode p = false ∧ p.PubKey = k := by
  induction nodes with
  | nil => intro st; simp
  | cons p ps ih =>
    intro st
    rw [List.foldl_cons, ih]
    cases h : skipNode p
    · rw [nodeBody_keep _ _ _ h]
      simp only [GoMap.has_set, List.mem_cons, exists_eq_or_imp, h, true_and]
      constructor
      · rintro ((hk | hk) | hk)
        · exact Or.inr (Or.inl hk.symm)
        · exact Or.inl hk
        · exact Or.inr (Or.inr hk)
      · rintro (hk | hk | hk)
        · exact Or.inl (Or.inr hk)
        · exact Or.inl (Or.inl hk.symm)
        · exact Or.inr hk
    · rw [nodeBody_skip _ _ _ h]
      simp [h]

theorem nodePass_nodes (nodeInfo : GetInfoResponse) (nodes : List LightningNode) :
    (nodePass nodeInfo nodes).1.Nodes =
      (nodes.filter (fun p => !skipNode p)).map (mkGraphNode nodeInfo) := by
  simp [nodePass, foldl_nodeBody_nodes]

theorem nodePass_edges (nodeInfo : GetInfoResponse) (nodes : List LightningNode) :
    (nodePass nodeInfo nodes).1.Edges = [] := by
  simp [nodePass, foldl_nodeBody_edges]

theorem nodePass_cache (nodeInfo : GetInfoResponse) (nodes : List LightningNode) (k : String) :
    (nodePass nodeInfo nodes).2.has k = true ↔
      ∃ p ∈ nodes, skipNode p = false ∧ p.PubKey = k := by
  simp [nodePass, foldl_nodeBody_cache, GoMap.has_nil]

theorem mkGraphNode_Id (nodeInfo : GetInfoResponse) (node : LightningNode) :
    (mkGraphNode nodeInfo node).Id = node.PubKey := by
  unfold mkGraphNode
  by_cases h1 : node.Color = "" <;> by_cases h2 : nodeInfo.IdentityPubkey = node.PubKey <;>
    simp [h1, h2]

theorem mkGraphNode_Mainstat (nodeInfo : GetInfoResponse) (node : LightningNode) :
    (mkGraphNode nodeInfo node).Mainstat =
      if node.PubKey = nodeInfo.IdentityPubkey then "true" else "" := by
  unfold mkGraphNode
  by_cases h1 : node.Color = "" <;> by_cases h2 : node.PubKey = nodeInfo.IdentityPubkey
  · simp [h1, h2]
  · simp [h1, h2, Ne.symm h2]
  · simp [h1, h2]
  · simp [h1, h2, Ne.symm h2]

theorem nodePass_cache_iff_Id (nodeInfo : GetInfoResponse) (nodes : List LightningNode)
    (k : String) :
    (nodePass nodeInfo nodes).2.has k = true ↔
      k ∈ (nodePass nodeInfo nodes).1.Nodes.map NetworkNode.Id := by
  rw [nodePass_cache, nodePass_nodes]
  simp only [List.mem_map, List.mem_filter, Bool.not_eq_true']
  constructor
  · rintro ⟨p, hp, hs, hk⟩
    exact ⟨_, ⟨p, ⟨hp, hs⟩, rfl⟩, by rw [mkGraphNode_Id, hk]⟩
  · rintro ⟨n, ⟨p, ⟨hp, hs⟩, rfl⟩, hk⟩
    exact ⟨p, hp, hs, by rw [← hk, mkGraphNode_Id]⟩

/-! ## The edge pass -/

theorem isEdgeOrphaned_eq_false (graphNodeCache : GoMap) (edge : ChannelEdge) :
    isEdgeOrphaned graphNodeCache edge = false ↔
      graphNodeCache.has edge.Node1Pub = true ∧ graphNodeCache.has edge.Node2Pub = true := by
  unfold isEdgeOrphaned
  cases graphNodeCache.has edge.Node1Pub <;> cases graphNodeCache.has edge.Node2Pub <;> simp

theorem foldl_edgeBody (graphNodeCache : GoMap) (edges : List ChannelEdge) :
    ∀ g : NetworkGraph,
      edges.foldl (edgeBody graphNodeCache) g =
        { g with Edges := g.Edges ++
            (edges.filter (fun c => !isEdgeOrphaned graphNodeCache c)).map mkGraphEdge } := by
  induction edges with
  | nil => intro g; simp
  | cons c cs ih =>
    intro g
    rw [List.foldl_cons, ih]
    cases h : isEdgeOrphaned graphNodeCache c <;> simp [edgeBody, h]

theorem buildPasses_nodes (nodeInfo : GetInfoResponse) (networkGraph : ChannelGraph) :
    (buildPasses nodeInfo networkGraph).Nodes =
      (networkGraph.Nodes.filter (fun p => !skipNode p)).map (mkGraphNode nodeInfo) := by
  simp [buildPasses, foldl_edgeBody, nodePass_nodes]

theorem buildPasses_edges (nodeInfo : GetInfoResponse) (networkGraph : ChannelGraph) :
    (buildPasses nodeInfo networkGraph).Edges =
      (networkGraph.Edges.filter
        (fun c => !isEdgeOrphaned (nodePass nodeInfo networkGraph.Nodes).2 c)).map mkGraphEdge := by
  simp [buildPasses, foldl_edgeBody, nodePass_edges]

/-! ## Machine integers -/

theorem uint64_of_nonneg (x : Int) (h0 : 0 ≤ x) (h1 : x < 18446744073709551616) :
    (uint64 x : Int) = x := by
  unfold uint64
  rw [Int.emod_eq_of_lt h0 h1]
  exact Int.toNat_of_nonneg h0

/-! ## Decimal rendering -/

theorem digitChar_isDigit (d : Nat) (h : d < 10) : (digitChar d).isDigit = true := by
  interval_cases d <;> rfl

theorem digitChar_range (d : Nat) (h : d < 10) : '0' ≤ digitChar d ∧ digitChar d ≤ '9' := by
  interval_cases d <;> decide

theorem digitVal_digitChar (d : Nat) (h : d < 10) : digitVal (digitChar d) = d := by
  interval_cases d <;> rfl

theorem digitChar_eq_zero (d : Nat) (h : d < 10) (hz : digitChar d = '0') : d = 0 := by
  interval_cases d <;> first | rfl | (exact absurd hz (by decide))

theorem formatBits_acc (fuel : Nat) :
    ∀ (u : Nat) (acc : List Char), formatBits fuel u acc = formatBits fuel u [] ++ acc := by
  induction fuel with
  | zero => intro u acc; simp [formatBits]
  | succ fuel ih =>
    intro u acc
    by_cases h : u < 10
    · simp [formatBits, h]
    · simp only [formatBits, h, if_false]
      rw [ih (u / 10) (digitChar (u % 10) :: acc), ih (u / 10) [digitChar (u % 10)]]
      simp

theorem formatBits_small (fuel u : Nat) (h : u < 10) :
    formatBits (fuel + 1) u [] = [digitChar u] := by
  simp [formatBits, h]

theorem formatBits_large (fuel u : Nat) (h : ¬ u < 10) :
    formatBits (fuel + 1) u [] = formatBits fuel (u / 10) [] ++ [digitChar (u % 10)] := by
  simp only [formatBits, h, if_false]
  exact formatBits_acc fuel (u / 10) [digitChar (u % 10)]

/-- The properties of the digit list, for any fuel above the number. -/
theorem formatBits_spec (fuel : Nat) :
    ∀ u : Nat, u < fuel →
      formatBits fuel u [] ≠ [] ∧
      (∀ c ∈ formatBits fuel u [], c.isDigit = true ∧ '0' ≤ c ∧ c ≤ '9') ∧
      (formatBits fuel u []).foldl (fun acc c => acc * 10 + digitVal c) 0 = u ∧
      ((formatBits fuel u []).head? = some '0' → u = 0) := by
  induction fuel with
  | zero => intro u hu; exact absurd hu (Nat.not_lt_zero u)
  | succ fuel ih =>
    intro u hu
    by_cases h : u < 10
    · rw [formatBits_small fuel u h]
      refine ⟨by simp, ?_, ?_, ?_⟩
      · intro c hc
        rw [List.mem_singleton] at hc
        subst hc
        exact ⟨digitChar_isDigit u h, digitChar_range u h⟩
      · simp [digitVal_digitChar u h]
      · intro hz
        simp only [List.head?_cons, Option.some.injEq] at hz
        exact digitChar_eq_zero u h hz
    · have hlt : u / 10 < fuel := by omega
      have hmod : u % 10 < 10 := Nat.mod_lt u (by decide)
      obtain ⟨hne, hdig, hval, hhead⟩ := ih (u / 10) hlt
      rw [formatBits_large fuel u h]
      refine ⟨by simp, ?_, ?_, ?_⟩
      · intro c hc
        rw [List.mem_append, List.mem_singleton] at hc
        rcases hc with hc | hc
        · exact hdig c hc
        · subst hc
          exact ⟨digitChar_isDigit _ hmod, digitChar_range _ hmod⟩
      · rw [List.foldl_append, hval]
        simp only [List.foldl_cons, List.foldl_nil, digitVal_digitChar _ hmod]
        omega
      · intro hz
        rw [List.head?_append_of_ne_nil _ hne] at hz
        have := hhead hz
        omega

theorem FormatUint_data (i : Nat) : (FormatUint i).data = formatBits (i + 1) i [] := rfl

theorem FormatUint_zero : FormatUint 0 = "0" := by decide

theorem parseDecimal_FormatUint (i : Nat) : parseDecimal (FormatUint i) = some i := by
  obtain ⟨hne, hdig, hval, _⟩ := formatBits_spec (i + 1) i (Nat.lt_succ_self i)
  unfold parseDecimal
  rw [FormatUint_data, if_neg hne, if_pos, hval]
  rw [List.all_eq_true]
  exact fun c hc => (hdig c hc).1

theorem FormatUint_injective (i j : Nat) (h : FormatUint i = FormatUint j) : i = j := by
  have hi := parseDecimal_FormatUint i
  rw [h, parseDecimal_FormatUint j] at hi
  exact (Option.some.inj hi).symm

theorem FormatUint_leading_zero (i : Nat) (h : (FormatUint i).data.head? = some '0') :
    FormatUint i = "0" := by
  obtain ⟨_, _, _, hhead⟩ := formatBits_spec (i + 1) i (Nat.lt_succ_self i)
  rw [FormatUint_data] at h
  rw [hhead h]
  exact FormatUint_zero

/-! ## The returned graph -/

theorem skipNode_iff_Stub (p : LightningNode) : skipNode p = true ↔ Stub p := by
  simp [skipNode, Stub, and_assoc]

theorem skipNode_false_iff (p : LightningNode) : skipNode p = false ↔ ¬ Stub p := by
  rw [← skipNode_iff_Stub, Bool.not_eq_true]

theorem builtGraph_eq (con : ClientConn) (nodeInfo : GetInfoResponse)
    (peers : List LightningNode) (chans : List ChannelEdge) :
    builtGraph con nodeInfo peers chans =
      buildPasses nodeInfo { Nodes := peers, Edges := chans } := rfl

theorem builtGraph_nodes (con : ClientConn) (nodeInfo : GetInfoResponse)
    (peers : List LightningNode) (chans : List ChannelEdge) :
    (builtGraph con nodeInfo peers chans).Nodes =
      (peers.filter (fun p => !skipNode p)).map (mkGraphNode nodeInfo) := by
  rw [builtGraph_eq, buildPasses_nodes]

theorem builtGraph_edges (con : ClientConn) (nodeInfo : GetInfoResponse)
    (peers : List LightningNode) (chans : List ChannelEdge) :
    (builtGraph con nodeInfo peers chans).Edges =
      (chans.filter (fun c => !isEdgeOrphaned (nodePass nodeInfo peers).2 c)).map
        mkGraphEdge := by
  rw [builtGraph_eq, buildPasses_edges]

theorem builtGraph_ids (con : ClientConn) (nodeInfo : GetInfoResponse)
    (peers : List LightningNode) (chans : List ChannelEdge) :
    (builtGraph con nodeInfo peers chans).Nodes.map NetworkNode.Id =
      emittedIds nodeInfo peers := by
  rw [builtGraph_nodes, emittedIds, nodePass_nodes]

theorem not_orphaned_iff_emitted (nodeInfo : GetInfoResponse) (peers : List LightningNode)
    (c : ChannelEdge) :
    isEdgeOrphaned (nodePass nodeInfo peers).2 c = false ↔
      c.Node1Pub ∈ emittedIds nodeInfo peers ∧ c.Node2Pub ∈ emittedIds nodeInfo peers := by
  rw [isEdgeOrphaned_eq_false, nodePass_cache_iff_Id, nodePass_cache_iff_Id]
  rfl

theorem filter_map_PubKey (nodeInfo : GetInfoResponse) (peers : List LightningNode) :
    (peers.map (mkGraphNode nodeInfo)).map NetworkNode.Id = peers.map LightningNode.PubKey := by
  rw [List.map_map]
  exact List.map_congr_left (fun p _ => mkGraphNode_Id nodeInfo p)

theorem mkGraphNode_Mainstat_true (nodeInfo : GetInfoResponse) (p : LightningNode) :
    (mkGraphNode nodeInfo p).Mainstat = "true" ↔ p.PubKey = nodeInfo.IdentityPubkey := by
  rw [mkGraphNode_Mainstat]
  by_cases h : p.PubKey = nodeInfo.IdentityPubkey
  · simp [h]
  · rw [if_neg h]
    exact ⟨fun hc => absurd hc (by decide), fun hc => absurd hc h⟩

theorem countP_key_le_one (k : String) (peers : List LightningNode)
    (h : (peers.map LightningNode.PubKey).Nodup) :
    peers.countP (fun p => decide (p.PubKey = k)) ≤ 1 := by
  induction peers with
  | nil => simp
  | cons p ps ih =>
    rw [List.map_cons, List.nodup_cons] at h
    by_cases hk : p.PubKey = k
    · rw [List.countP_cons_of_pos (fun p => decide (p.PubKey = k)) ps (decide_eq_true hk)]
      have hz : ps.countP (fun p => decide (p.PubKey = k)) = 0 := by
        rw [List.countP_eq_zero]
        intro q hq hqk
        apply h.1
        rw [hk, ← of_decide_eq_true hqk]
        exact List.mem_map_of_mem _ hq
      omega
    · rw [List.countP_cons_of_neg (fun p => decide (p.PubKey = k)) ps (by simpa using hk)]
      exact ih h.2

theorem filter_skipNode_eq (peers : List LightningNode) :
    peers.filter (fun p => !skipNode p) = peers.filter (fun p => decide (¬ Stub p)) := by
  apply List.filter_congr
  intro p _
  by_cases h : Stub p
  · simp [h, (skipNode_iff_Stub p).2 h]
  · simp [h, (skipNode_false_iff p).2 h]

theorem emittedIds_eq_nonStubKeys (nodeInfo : GetInfoResponse) (peers : List LightningNode) :
    emittedIds nodeInfo peers = nonStubKeys peers := by
  rw [emittedIds, nodePass_nodes, filter_map_PubKey, filter_skipNode_eq, nonStubKeys]

theorem not_orphaned_iff_spec (nodeInfo : GetInfoResponse) (peers : List LightningNode)
    (c : ChannelEdge) :
    isEdgeOrphaned (nodePass nodeInfo peers).2 c = false ↔ ¬ OrphanedChannel peers c := by
  rw [not_orphaned_iff_emitted, emittedIds_eq_nonStubKeys, OrphanedChannel, not_or,
    not_not, not_not]

theorem filter_orphaned_eq (nodeInfo : GetInfoResponse) (peers : List LightningNode)
    (chans : List ChannelEdge) :
    chans.filter (fun c => !isEdgeOrphaned (nodePass nodeInfo peers).2 c) =
      chans.filter (fun c => decide (¬ OrphanedChannel peers c)) := by
  apply List.filter_congr
  intro c _
  by_cases h : isEdgeOrphaned (nodePass nodeInfo peers).2 c = false
  · rw [h, decide_eq_true ((not_orphaned_iff_spec nodeInfo peers c).1 h)]
    rfl
  · rw [decide_eq_false (fun hc => h ((not_orphaned_iff_spec nodeInfo peers c).2 hc))]
    rw [Bool.not_eq_false] at h
    rw [h]
    rfl

theorem mkGraphNode_eq (nodeInfo : GetInfoResponse) (p : LightningNode) :
    mkGraphNode nodeInfo p =
      { Id := p.PubKey, Title := p.Alias, Subtitle := uint64 p.LastUpdate,
        Mainstat := if p.PubKey = nodeInfo.IdentityPubkey then "true" else "",
        Color := p.Color } := by
  unfold mkGraphNode
  by_cases h1 : p.Color = "" <;> by_cases h2 : p.PubKey = nodeInfo.IdentityPubkey
  · simp [h1, h2]
  · simp [h1, h2, Ne.symm h2]
  · simp [h1, h2]
  · simp [h1, h2, Ne.symm h2]

theorem edgeBody_keep (graphNodeCache : GoMap) (g : NetworkGraph) (c : ChannelEdge)
    (hc : isEdgeOrphaned graphNodeCache c = false) :
    edgeBody graphNodeCache g c = { g with Edges := g.Edges ++ [mkGraphEdge c] } := by
  simp [edgeBody, hc]

theorem builtGraph_edges_spec (con : ClientConn) (nodeInfo : GetInfoResponse)
    (peers : List LightningNode) (chans : List ChannelEdge) :
    (builtGraph con nodeInfo peers chans).Edges =
      (chans.filter (fun c => decide (¬ OrphanedChannel peers c))).map mkGraphEdge := by
  rw [builtGraph_edges, filter_orphaned_eq]

/-! ## The claims -/

/-- C1. When the three upstream steps succeed, every edge of the graph returned
by `buildGraph` has a `Source` that is the `Id` of a node of the same graph and
a `Target` that is the `Id` of a node of the same graph. -/
theorem buildGraph_no_dangling_edges (con : ClientConn) (nodeInfo : GetInfoResponse)
    (peers : List LightningNode) (chans : List ChannelEdge) (e : NetworkEdge)
    (he : e ∈ (buildGraph (.ok con) (.ok nodeInfo)
      (.ok { Nodes := peers, Edges := chans })).1.Edges) :
    (∃ n ∈ (buildGraph (.ok con) (.ok nodeInfo)
        (.ok { Nodes := peers, Edges := chans })).1.Nodes, n.Id = e.Source) ∧
    (∃ n ∈ (buildGraph (.ok con) (.ok nodeInfo)
        (.ok { Nodes := peers, Edges := chans })).1.Nodes, n.Id = e.Target) := by
  change e ∈ (builtGraph con nodeInfo peers chans).Edges at he
  change (∃ n ∈ (builtGraph con nodeInfo peers chans).Nodes, n.Id = e.Source) ∧
    (∃ n ∈ (builtGraph con nodeInfo peers chans).Nodes, n.Id = e.Target)
  rw [builtGraph_edges, List.mem_map] at he
  obtain ⟨c, hc, rfl⟩ := he
  rw [List.mem_filter, Bool.not_eq_true', not_orphaned_iff_emitted,
    ← builtGraph_ids con nodeInfo peers chans] at hc
  obtain ⟨_, h1, h2⟩ := hc
  rw [List.mem_map] at h1 h2
  exact ⟨h1, h2⟩

/-- Witness for C1 on the scenario of the specification: the edge of channel 6
joins node B to itself. -/
theorem buildGraph_no_dangling_edges_witness :
    (⟨"6", "B", "B", 2000, 0⟩ : NetworkEdge) ∈ (buildGraph (.ok ⟨"lnd"⟩) (.ok ⟨"B"⟩)
      (.ok { Nodes := [peerA, peerB], Edges := [chan5, chan6] })).1.Edges ∧
    ((∃ n ∈ (buildGraph (.ok ⟨"lnd"⟩) (.ok ⟨"B"⟩)
        (.ok { Nodes := [peerA, peerB], Edges := [chan5, chan6] })).1.Nodes, n.Id = "B") ∧
    (∃ n ∈ (buildGraph (.ok ⟨"lnd"⟩) (.ok ⟨"B"⟩)
        (.ok { Nodes := [peerA, peerB], Edges := [chan5, chan6] })).1.Nodes, n.Id = "B")) :=
  ⟨by decide, buildGraph_no_dangling_edges ⟨"lnd"⟩ ⟨"B"⟩ [peerA, peerB] [chan5, chan6]
    ⟨"6", "B", "B", 2000, 0⟩ (by decide)⟩

/-- C2. The node pass emits a node for a peer record exactly when the record is
not a stub: an iteration on a stub leaves the node list and the known-identities
map untouched, an iteration on any other record appends exactly one node, whose
`Id` is the record's identity key, and records the key; over the whole pass the
node list is the image of the records that are not stubs, a key is known
exactly when a record that is not a stub carries it, and the nodes that
`buildGraph` returns are the nodes of that pass. -/
theorem nodePass_emits_iff_not_stub (nodeInfo : GetInfoResponse)
    (peers : List LightningNode) :
    (∀ (st : NetworkGraph × GoMap) (p : LightningNode),
      nodeBody nodeInfo st p =
        if Stub p then st
        else ({ st.1 with Nodes := st.1.Nodes ++ [mkGraphNode nodeInfo p] },
          st.2.set p.PubKey "")) ∧
    (∀ p : LightningNode, (mkGraphNode nodeInfo p).Id = p.PubKey) ∧
    (nodePass nodeInfo peers).1.Nodes =
      (peers.filter (fun p => decide (¬ Stub p))).map (mkGraphNode nodeInfo) ∧
    (∀ k : String, (nodePass nodeInfo peers).2.has k = true ↔
      ∃ p ∈ peers, ¬ Stub p ∧ p.PubKey = k) ∧
    (∀ (con : ClientConn) (chans : List ChannelEdge),
      (buildGraph (.ok con) (.ok nodeInfo)
          (.ok { Nodes := peers, Edges := chans })).1.Nodes =
        (peers.filter (fun p => decide (¬ Stub p))).map (mkGraphNode nodeInfo)) := by
  refine ⟨?_, mkGraphNode_Id nodeInfo, ?_, ?_, ?_⟩
  rotate_right
  · intro con chans
    change (builtGraph con nodeInfo peers chans).Nodes = _
    rw [builtGraph_nodes, filter_skipNode_eq]
  · intro st p
    by_cases h : Stub p
    · rw [if_pos h, nodeBody_skip _ _ _ ((skipNode_iff_Stub p).2 h)]
    · rw [if_neg h, nodeBody_keep _ _ _ ((skipNode_false_iff p).2 h)]
  · rw [nodePass_nodes]
    congr 1
    apply List.filter_congr
    intro p _
    by_cases h : Stub p
    · simp [h, (skipNode_iff_Stub p).2 h]
    · simp [h, (skipNode_false_iff p).2 h]
  · intro k
    rw [nodePass_cache]
    simp only [skipNode_false_iff]

/-- C3. The edge pass emits an edge for a channel record exactly when both of its
endpoint keys are identifiers of nodes emitted by the node pass: this is what
`isEdgeOrphaned` decides, an iteration appends the edge in that case and changes
nothing otherwise, the returned edge list is the image of the channels with both
endpoints emitted, a channel from an emitted node to itself is emitted, and a
channel with an endpoint that was not emitted has no edge in the result. -/
theorem edgePass_emits_iff_endpoints_emitted (con : ClientConn) (nodeInfo : GetInfoResponse)
    (peers : List LightningNode) (chans : List ChannelEdge) :
    (∀ c : ChannelEdge, isEdgeOrphaned (nodePass nodeInfo peers).2 c = false ↔
      c.Node1Pub ∈ emittedIds nodeInfo peers ∧ c.Node2Pub ∈ emittedIds nodeInfo peers) ∧
    (∀ (g : NetworkGraph) (c : ChannelEdge),
      edgeBody (nodePass nodeInfo peers).2 g c =
        if c.Node1Pub ∈ emittedIds nodeInfo peers ∧ c.Node2Pub ∈ emittedIds nodeInfo peers
        then { g with Edges := g.Edges ++ [mkGraphEdge c] } else g) ∧
    (buildGraph (.ok con) (.ok nodeInfo) (.ok { Nodes := peers, Edges := chans })).1.Edges =
      (chans.filter (fun c => decide (c.Node1Pub ∈ emittedIds nodeInfo peers ∧
        c.Node2Pub ∈ emittedIds nodeInfo peers))).map mkGraphEdge ∧
    (∀ c ∈ chans, c.Node1Pub = c.Node2Pub → c.Node1Pub ∈ emittedIds nodeInfo peers →
      mkGraphEdge c ∈ (buildGraph (.ok con) (.ok nodeInfo)
        (.ok { Nodes := peers, Edges := chans })).1.Edges) ∧
    (∀ c : ChannelEdge, (c.Node1Pub ∉ emittedIds nodeInfo peers ∨
        c.Node2Pub ∉ emittedIds nodeInfo peers) →
      mkGraphEdge c ∉ (buildGraph (.ok con) (.ok nodeInfo)
        (.ok { Nodes := peers, Edges := chans })).1.Edges) := by
  have hedges : (buildGraph (.ok con) (.ok nodeInfo)
      (.ok { Nodes := peers, Edges := chans })).1.Edges =
      (chans.filter (fun c => decide (c.Node1Pub ∈ emittedIds nodeInfo peers ∧
        c.Node2Pub ∈ emittedIds nodeInfo peers))).map mkGraphEdge := by
    change (builtGraph con nodeInfo peers chans).Edges = _
    rw [builtGraph_edges]
    congr 1
    apply List.filter_congr
    intro c _
    by_cases h : isEdgeOrphaned (nodePass nodeInfo peers).2 c = false
    · rw [h, decide_eq_true ((not_orphaned_iff_emitted nodeInfo peers c).1 h)]
      rfl
    · rw [Bool.not_eq_false] at h
      rw [h, decide_eq_false (fun hc => by
        rw [← not_orphaned_iff_emitted, h] at hc
        exact Bool.noConfusion hc)]
      rfl
  refine ⟨not_orphaned_iff_emitted nodeInfo peers, ?_, hedges, ?_, ?_⟩
  · intro g c
    by_cases h : isEdgeOrphaned (nodePass nodeInfo peers).2 c = false
    · rw [if_pos ((not_orphaned_iff_emitted nodeInfo peers c).1 h)]
      simp [edgeBody, h]
    · rw [if_neg (fun hc => h ((not_orphaned_iff_emitted nodeInfo peers c).2 hc))]
      rw [Bool.not_eq_false] at h
      simp [edgeBody, h]
  · intro c hc hloop hmem
    rw [hedges, List.mem_map]
    refine ⟨c, ?_, rfl⟩
    rw [List.mem_filter]
    exact ⟨hc, decide_eq_true ⟨hmem, hloop ▸ hmem⟩⟩
  · intro c hmiss hmem
    rw [hedges, List.mem_map] at hmem
    obtain ⟨d, hd, hdc⟩ := hmem
    rw [List.mem_filter] at hd
    have h1 : d.Node1Pub = c.Node1Pub := congrArg NetworkEdge.Source hdc
    have h2 : d.Node2Pub = c.Node2Pub := congrArg NetworkEdge.Target hdc
    have hboth := of_decide_eq_true hd.2
    rw [h1, h2] at hboth
    rcases hmiss with hm | hm
    · exact hm hboth.1
    · exact hm hboth.2

/-- Witness for C3 on the scenario of the specification: channel 6, from the
emitted node B to itself, is emitted. -/
theorem edgePass_emits_iff_endpoints_emitted_witness :
    chan6 ∈ [chan5, chan6] ∧ chan6.Node1Pub = chan6.Node2Pub ∧
    chan6.Node1Pub ∈ emittedIds ⟨"B"⟩ [peerA, peerB] ∧
    mkGraphEdge chan6 ∈ (buildGraph (.ok ⟨"lnd"⟩) (.ok ⟨"B"⟩)
      (.ok { Nodes := [peerA, peerB], Edges := [chan5, chan6] })).1.Edges :=
  ⟨by decide, rfl, by decide,
    (edgePass_emits_iff_endpoints_emitted ⟨"lnd"⟩ ⟨"B"⟩ [peerA, peerB]
      [chan5, chan6]).2.2.2.1 chan6 (by decide) rfl (by decide)⟩

/-- C5. Filtering keeps the input order: the returned nodes are the nodes of the
peer records that are not stubs, in input order, so their identifiers are the
identity keys of those records in input order; the returned edges are the edges
of the channel records whose two endpoint keys both belong to a record that is
not a stub, in input order, so their identifiers read back as the channel
identifiers of those records in input order; both selections are sublists of the
inputs. -/
theorem buildGraph_preserves_order (con : ClientConn) (nodeInfo : GetInfoResponse)
    (peers : List LightningNode) (chans : List ChannelEdge) :
    (buildGraph (.ok con) (.ok nodeInfo)
        (.ok { Nodes := peers, Edges := chans })).1.Nodes.map NetworkNode.Id =
      (peers.filter (fun p => decide (¬ Stub p))).map LightningNode.PubKey ∧
    (buildGraph (.ok con) (.ok nodeInfo) (.ok { Nodes := peers, Edges := chans })).1.Nodes =
      (peers.filter (fun p => decide (¬ Stub p))).map
        (fun p =>
          ({ Id := p.PubKey, Title := p.Alias, Subtitle := uint64 p.LastUpdate,
             Mainstat := if p.PubKey = nodeInfo.IdentityPubkey then "true" else "",
             Color := p.Color } : NetworkNode)) ∧
    (buildGraph (.ok con) (.ok nodeInfo) (.ok { Nodes := peers, Edges := chans })).1.Edges =
      (chans.filter (fun c => decide (¬ OrphanedChannel peers c))).map
        (fun c =>
          ({ Id := FormatUint c.ChannelId, Source := c.Node1Pub, Target := c.Node2Pub,
             Mainstat := uint64 c.Capacity, Secondarystat := 0 } : NetworkEdge)) ∧
    (buildGraph (.ok con) (.ok nodeInfo)
        (.ok { Nodes := peers, Edges := chans })).1.Edges.map
        (fun e => (parseDecimal e.Id, e.Source, e.Target)) =
      (chans.filter (fun c => decide (¬ OrphanedChannel peers c))).map
        (fun c => (some c.ChannelId, c.Node1Pub, c.Node2Pub)) ∧
    List.Sublist (peers.filter (fun p => decide (¬ Stub p))) peers ∧
    List.Sublist (chans.filter (fun c => decide (¬ OrphanedChannel peers c))) chans := by
  have hnodes := builtGraph_nodes con nodeInfo peers chans
  rw [filter_skipNode_eq] at hnodes
  have hedges := builtGraph_edges_spec con nodeInfo peers chans
  refine ⟨?_, ?_, hedges, ?_, List.filter_sublist _, List.filter_sublist _⟩
  · change (builtGraph con nodeInfo peers chans).Nodes.map NetworkNode.Id = _
    rw [hnodes, filter_map_PubKey]
  · change (builtGraph con nodeInfo peers chans).Nodes = _
    rw [hnodes]
    exact List.map_congr_left (fun p _ => mkGraphNode_eq nodeInfo p)
  · change (builtGraph con nodeInfo peers chans).Edges.map _ = _
    rw [hedges, List.map_map]
    apply List.map_congr_left
    intro c _
    show (parseDecimal (FormatUint c.ChannelId), c.Node1Pub, c.Node2Pub) = _
    rw [parseDecimal_FormatUint]

/-- Witness for C5 on the scenario of the specification: peer A and channel 5
are dropped, peer B and channel 6 are kept. -/
theorem buildGraph_preserves_order_witness :
    (buildGraph (.ok ⟨"lnd"⟩) (.ok ⟨"B"⟩)
        (.ok { Nodes := [peerA, peerB], Edges := [chan5, chan6] })).1 =
      { Edges := [⟨"6", "B", "B", 2000, 0⟩], Nodes := [⟨"B", "Bob", 100, "true", "#fff"⟩] } ∧
    [peerA, peerB].filter (fun p => decide (¬ Stub p)) = [peerB] ∧
    [chan5, chan6].filter (fun c => decide (¬ OrphanedChannel [peerA, peerB] c)) = [chan6] ∧
    (buildGraph (.ok ⟨"lnd"⟩) (.ok ⟨"B"⟩)
        (.ok { Nodes := [peerA, peerB], Edges := [chan5, chan6] })).1.Edges.map
        (fun e => (parseDecimal e.Id, e.Source, e.Target)) =
      [(some 6, "B", "B")] :=
  ⟨by decide, by decide, by decide,
    (buildGraph_preserves_order ⟨"lnd"⟩ ⟨"B"⟩ [peerA, peerB]
      [chan5, chan6]).2.2.2.1.trans (by decide)⟩

/-- C6. `buildGraph` returns an error exactly when one of the three upstream
steps failed, the error is the one of the first step that failed, a returned
error comes with an empty node list and an empty edge list, and no error is
returned when the three steps succeed. -/
theorem buildGraph_error_iff (con : Except GoError ClientConn)
    (getInfo : Except GoError GetInfoResponse) (describeGraph : Except GoError ChannelGraph) :
    ((buildGraph con getInfo describeGraph).2.isSome = true ↔
      (con.isOk = false ∨ getInfo.isOk = false ∨ describeGraph.isOk = false)) ∧
    (∀ err : GoError, (buildGraph con getInfo describeGraph).2 = some err ↔
      (con = .error err ∨
        (con.isOk = true ∧ getInfo = .error err) ∨
        (con.isOk = true ∧ getInfo.isOk = true ∧ describeGraph = .error err))) ∧
    ((buildGraph con getInfo describeGraph).2.isSome = true →
      (buildGraph con getInfo describeGraph).1.Nodes = [] ∧
      (buildGraph con getInfo describeGraph).1.Edges = []) ∧
    (con.isOk = true → getInfo.isOk = true → describeGraph.isOk = true →
      (buildGraph con getInfo describeGraph).2 = none) := by
  cases con <;> cases getInfo <;> cases describeGraph <;>
    simp [buildGraph, Except.isOk, Except.toBool]

/-- Witness for C6: a failing `GetInfo` and a succeeding fetch. -/
theorem buildGraph_error_iff_witness :
    ((buildGraph (.ok ⟨"lnd"⟩) (.error "rpc error") (.ok { Nodes := [peerB], Edges := [] })
        ).2.isSome = true ∧
      (buildGraph (.ok ⟨"lnd"⟩) (.error "rpc error") (.ok { Nodes := [peerB], Edges := [] })
        ).1.Nodes = [] ∧
      (buildGraph (.ok ⟨"lnd"⟩) (.error "rpc error") (.ok { Nodes := [peerB], Edges := [] })
        ).1.Edges = []) :=
  ⟨by decide, (buildGraph_error_iff (.ok ⟨"lnd"⟩) (.error "rpc error")
    (.ok { Nodes := [peerB], Edges := [] })).2.2.1 (by decide)⟩

/-- C7. The value served by the `/api/graph/fields` handler is the same for
every request and is the two literal field lists, in order; every declared type
is "string" or "number", and the edge field "mainstat" is declared "string". -/
theorem fieldsHandler_constant (r : Request) :
    fieldsHandler r =
      { Edges_fields :=
          [⟨"id", "string"⟩, ⟨"source", "string"⟩, ⟨"target", "string"⟩,
            ⟨"mainstat", "string"⟩, ⟨"secondarystat", "number"⟩],
        Nodes_fields :=
          [⟨"id", "string"⟩, ⟨"title", "string"⟩, ⟨"subtitle", "number"⟩,
            ⟨"mainstat", "string"⟩, ⟨"color", "string"⟩] } ∧
    (∀ f ∈ (fieldsHandler r).Edges_fields ++ (fieldsHandler r).Nodes_fields,
      f.Field_type = "string" ∨ f.Field_type = "number") ∧
    (⟨"mainstat", "string"⟩ : field) ∈ (fieldsHandler r).Edges_fields ∧
    (∀ f ∈ (fieldsHandler r).Edges_fields, f.Field_name = "mainstat" →
      f.Field_type = "string") := by
  refine ⟨rfl, ?_, by simp [fieldsHandler, fieldStructure], ?_⟩
  · intro f hf
    simp only [fieldsHandler, fieldStructure, List.cons_append, List.nil_append,
      List.mem_cons, List.mem_singleton] at hf
    rcases hf with h | h | h | h | h | h | h | h | h | h | h <;> first
      | (subst h; decide)
      | (exact absurd h (List.not_mem_nil _))
  · intro f hf hname
    simp only [fieldsHandler, fieldStructure, List.mem_cons, List.mem_singleton] at hf
    rcases hf with h | h | h | h | h | h <;> first
      | (subst h; first | rfl | exact absurd hname (by decide))
      | (exact absurd h (List.not_mem_nil _))

/-- Witness for C7: the edge field "mainstat" of the served schema is declared
"string". -/
theorem fieldsHandler_constant_witness :
    (⟨"mainstat", "string"⟩ : field) ∈ (fieldsHandler ⟨"GET", "/api/graph/fields", ""⟩).Edges_fields ∧
    (⟨"mainstat", "string"⟩ : field).Field_name = "mainstat" ∧
    (⟨"mainstat", "string"⟩ : field).Field_type = "string" :=
  ⟨by decide, rfl,
    (fieldsHandler_constant ⟨"GET", "/api/graph/fields", ""⟩).2.2.2 ⟨"mainstat", "string"⟩
      (by decide) rfl⟩

/-- C4. When the identity keys of the peer records are pairwise distinct, the
returned graph has at most one node whose `Mainstat` is "true"; there is one
exactly when a record that is not a stub carries the local identity key, its
`Id` is then the local identity key, and there is none when the local record is
absent or is a stub. -/
theorem self_flag_at_most_one (con : ClientConn) (nodeInfo : GetInfoResponse)
    (peers : List LightningNode) (chans : List ChannelEdge)
    (hdistinct : (peers.map LightningNode.PubKey).Nodup) :
    ((buildGraph (.ok con) (.ok nodeInfo) (.ok { Nodes := peers, Edges := chans })).1.Nodes.filter
        (fun n => decide (n.Mainstat = "true"))).length ≤ 1 ∧
    ((∃ n ∈ (buildGraph (.ok con) (.ok nodeInfo)
        (.ok { Nodes := peers, Edges := chans })).1.Nodes, n.Mainstat = "true") ↔
      ∃ p ∈ peers, ¬ Stub p ∧ p.PubKey = nodeInfo.IdentityPubkey) ∧
    (∀ n ∈ (buildGraph (.ok con) (.ok nodeInfo)
        (.ok { Nodes := peers, Edges := chans })).1.Nodes,
      n.Mainstat = "true" → n.Id = nodeInfo.IdentityPubkey) ∧
    ((¬ ∃ p ∈ peers, ¬ Stub p ∧ p.PubKey = nodeInfo.IdentityPubkey) →
      ∀ n ∈ (buildGraph (.ok con) (.ok nodeInfo)
        (.ok { Nodes := peers, Edges := chans })).1.Nodes, n.Mainstat ≠ "true") := by
  change ((builtGraph con nodeInfo peers chans).Nodes.filter
        (fun n => decide (n.Mainstat = "true"))).length ≤ 1 ∧
    ((∃ n ∈ (builtGraph con nodeInfo peers chans).Nodes, n.Mainstat = "true") ↔
      ∃ p ∈ peers, ¬ Stub p ∧ p.PubKey = nodeInfo.IdentityPubkey) ∧
    (∀ n ∈ (builtGraph con nodeInfo peers chans).Nodes,
      n.Mainstat = "true" → n.Id = nodeInfo.IdentityPubkey) ∧
    ((¬ ∃ p ∈ peers, ¬ Stub p ∧ p.PubKey = nodeInfo.IdentityPubkey) →
      ∀ n ∈ (builtGraph con nodeInfo peers chans).Nodes, n.Mainstat ≠ "true")
  rw [builtGraph_nodes]
  have hiff : (∃ n ∈ (peers.filter (fun p => !skipNode p)).map (mkGraphNode nodeInfo),
      n.Mainstat = "true") ↔ ∃ p ∈ peers, ¬ Stub p ∧ p.PubKey = nodeInfo.IdentityPubkey := by
    constructor
    · rintro ⟨n, hn, hm⟩
      rw [List.mem_map] at hn
      obtain ⟨p, hp, rfl⟩ := hn
      rw [List.mem_filter, Bool.not_eq_true', skipNode_false_iff] at hp
      exact ⟨p, hp.1, hp.2, (mkGraphNode_Mainstat_true nodeInfo p).1 hm⟩
    · rintro ⟨p, hp, hs, hk⟩
      refine ⟨mkGraphNode nodeInfo p, ?_, (mkGraphNode_Mainstat_true nodeInfo p).2 hk⟩
      rw [List.mem_map]
      refine ⟨p, ?_, rfl⟩
      rw [List.mem_filter, Bool.not_eq_true', skipNode_false_iff]
      exact ⟨hp, hs⟩
  refine ⟨?_, hiff, ?_, ?_⟩
  · rw [← List.countP_eq_length_filter, List.countP_map]
    refine le_trans (List.Sublist.countP_le _ (List.filter_sublist _)) ?_
    refine le_trans (le_of_eq (List.countP_congr ?_))
      (countP_key_le_one nodeInfo.IdentityPubkey peers hdistinct)
    intro p _
    simp only [Function.comp_apply, decide_eq_true_eq]
    exact mkGraphNode_Mainstat_true nodeInfo p
  · intro n hn hm
    rw [List.mem_map] at hn
    obtain ⟨p, _, rfl⟩ := hn
    rw [mkGraphNode_Id]
    exact (mkGraphNode_Mainstat_true nodeInfo p).1 hm
  · intro hnone n hn hm
    exact hnone (hiff.1 ⟨n, hn, hm⟩)

/-- Witness for C4 on the scenario of the specification with local key "B". -/
theorem self_flag_at_most_one_witness :
    ([peerA, peerB].map LightningNode.PubKey).Nodup ∧
    ((buildGraph (.ok ⟨"lnd"⟩) (.ok ⟨"B"⟩)
        (.ok { Nodes := [peerA, peerB], Edges := [chan5, chan6] })).1.Nodes.filter
      (fun n => decide (n.Mainstat = "true"))).length ≤ 1 :=
  ⟨by decide, (self_flag_at_most_one ⟨"lnd"⟩ ⟨"B"⟩ [peerA, peerB] [chan5, chan6]
    (by decide)).1⟩

/-- C8. For a record `p` that is not a stub, the iteration of the node pass
appends one node, which is in the graph that `buildGraph` returns, and whose
`Id` is the identity key of `p`, `Title` its alias, `Subtitle` its timestamp
converted to `uint64` (the same number when the timestamp is not negative),
`Color` its colour (empty when `p` has none) and `Mainstat` "true" when the
identity key of `p` is the local one and empty otherwise. -/
theorem nodeBody_emits_fields (nodeInfo : GetInfoResponse) (p : LightningNode)
    (hp : ¬ Stub p) :
    (∀ st : NetworkGraph × GoMap, nodeBody nodeInfo st p =
      ({ st.1 with Nodes := st.1.Nodes ++ [mkGraphNode nodeInfo p] },
        st.2.set p.PubKey "")) ∧
    (∀ (con : ClientConn) (peers : List LightningNode) (chans : List ChannelEdge),
      p ∈ peers → mkGraphNode nodeInfo p ∈ (buildGraph (.ok con) (.ok nodeInfo)
        (.ok { Nodes := peers, Edges := chans })).1.Nodes) ∧
    (mkGraphNode nodeInfo p).Id = p.PubKey ∧
    (mkGraphNode nodeInfo p).Title = p.Alias ∧
    (mkGraphNode nodeInfo p).Subtitle = uint64 p.LastUpdate ∧
    (0 ≤ p.LastUpdate → p.LastUpdate < 18446744073709551616 →
      ((mkGraphNode nodeInfo p).Subtitle : Int) = p.LastUpdate) ∧
    (mkGraphNode nodeInfo p).Color = p.Color ∧
    (p.Color = "" → (mkGraphNode nodeInfo p).Color = "") ∧
    (mkGraphNode nodeInfo p).Mainstat =
      (if p.PubKey = nodeInfo.IdentityPubkey then "true" else "") := by
  have hTitle : (mkGraphNode nodeInfo p).Title = p.Alias := by
    unfold mkGraphNode
    by_cases h1 : p.Color = "" <;> by_cases h2 : nodeInfo.IdentityPubkey = p.PubKey <;>
      simp [h1, h2]
  have hSub : (mkGraphNode nodeInfo p).Subtitle = uint64 p.LastUpdate := by
    unfold mkGraphNode
    by_cases h1 : p.Color = "" <;> by_cases h2 : nodeInfo.IdentityPubkey = p.PubKey <;>
      simp [h1, h2]
  have hColor : (mkGraphNode nodeInfo p).Color = p.Color := by
    unfold mkGraphNode
    by_cases h1 : p.Color = "" <;> by_cases h2 : nodeInfo.IdentityPubkey = p.PubKey <;>
      simp [h1, h2]
  refine ⟨fun st => nodeBody_keep nodeInfo st p ((skipNode_false_iff p).2 hp), ?_,
    mkGraphNode_Id nodeInfo p, hTitle, hSub, ?_, hColor, ?_, mkGraphNode_Mainstat nodeInfo p⟩
  · intro con peers chans hmem
    change mkGraphNode nodeInfo p ∈ (builtGraph con nodeInfo peers chans).Nodes
    rw [builtGraph_nodes, List.mem_map]
    refine ⟨p, ?_, rfl⟩
    rw [List.mem_filter, Bool.not_eq_true', skipNode_false_iff]
    exact ⟨hmem, hp⟩
  · intro h0 h1
    rw [hSub]
    exact uint64_of_nonneg _ h0 h1
  · intro hc
    rw [hColor, hc]

/-- Witness for C8 on the scenario of the specification: the record of Bob. -/
theorem nodeBody_emits_fields_witness :
    ¬ Stub peerB ∧
    mkGraphNode ⟨"B"⟩ peerB = ⟨"B", "Bob", 100, "true", "#fff"⟩ ∧
    (mkGraphNode ⟨"B"⟩ peerB).Id = peerB.PubKey ∧
    (mkGraphNode ⟨"B"⟩ peerB).Title = peerB.Alias :=
  ⟨by decide, by decide, (nodeBody_emits_fields ⟨"B"⟩ peerB (by decide)).2.2.1,
    (nodeBody_emits_fields ⟨"B"⟩ peerB (by decide)).2.2.2.1⟩

/-- C9. For a channel record `c` of the input that is not orphaned, `buildGraph`
returns an edge for `c`: the edge pass does not skip it, its iteration appends
one edge, and that edge is in the returned graph with `Id` the decimal rendering
of the channel identifier (not empty, made of the characters 0 to 9 only, with a
leading zero only in the string "0", and read back as the same identifier),
`Source` the first endpoint key, `Target` the second, `Mainstat` the capacity
converted to `uint64` (the same number when the capacity is not negative) and
`Secondarystat` zero; every returned edge is built this way from a channel that
is not orphaned, and channels with distinct identifiers get distinct edge
`Id`s. -/
theorem buildGraph_edge_fields (con : ClientConn) (nodeInfo : GetInfoResponse)
    (peers : List LightningNode) (chans : List ChannelEdge) (c : ChannelEdge)
    (hmem : c ∈ chans) (hc : ¬ OrphanedChannel peers c) :
    isEdgeOrphaned (nodePass nodeInfo peers).2 c = false ∧
    (∀ (graphNodeCache : GoMap) (g : NetworkGraph),
      isEdgeOrphaned graphNodeCache c = false →
      edgeBody graphNodeCache g c =
        { g with Edges := g.Edges ++
          [{ Id := FormatUint c.ChannelId, Source := c.Node1Pub, Target := c.Node2Pub,
             Mainstat := uint64 c.Capacity, Secondarystat := 0 }] }) ∧
    (∃ e ∈ (buildGraph (.ok con) (.ok nodeInfo)
        (.ok { Nodes := peers, Edges := chans })).1.Edges,
      e = mkGraphEdge c ∧
      e.Id = FormatUint c.ChannelId ∧
      e.Id.data ≠ [] ∧
      (∀ ch ∈ e.Id.data, '0' ≤ ch ∧ ch ≤ '9') ∧
      (e.Id.data.head? = some '0' → e.Id = "0") ∧
      parseDecimal e.Id = some c.ChannelId ∧
      e.Source = c.Node1Pub ∧
      e.Target = c.Node2Pub ∧
      e.Mainstat = uint64 c.Capacity ∧
      (0 ≤ c.Capacity → c.Capacity < 18446744073709551616 →
        (e.Mainstat : Int) = c.Capacity) ∧
      e.Secondarystat = 0) ∧
    (∀ e ∈ (buildGraph (.ok con) (.ok nodeInfo)
        (.ok { Nodes := peers, Edges := chans })).1.Edges,
      ∃ d ∈ chans, ¬ OrphanedChannel peers d ∧
        e = { Id := FormatUint d.ChannelId, Source := d.Node1Pub, Target := d.Node2Pub,
              Mainstat := uint64 d.Capacity, Secondarystat := 0 } ∧
        parseDecimal e.Id = some d.ChannelId) ∧
    (∀ d : ChannelEdge, (mkGraphEdge d).Id = (mkGraphEdge c).Id →
      d.ChannelId = c.ChannelId) := by
  have hedges : (buildGraph (.ok con) (.ok nodeInfo)
      (.ok { Nodes := peers, Edges := chans })).1.Edges =
      (chans.filter (fun c => decide (¬ OrphanedChannel peers c))).map mkGraphEdge :=
    builtGraph_edges_spec con nodeInfo peers chans
  obtain ⟨hne, hdig, _, _⟩ :=
    formatBits_spec (c.ChannelId + 1) c.ChannelId (Nat.lt_succ_self _)
  refine ⟨(not_orphaned_iff_spec nodeInfo peers c).2 hc,
    fun cache g h => edgeBody_keep cache g c h, ?_, ?_,
    fun d hd => FormatUint_injective _ _ hd⟩
  · refine ⟨mkGraphEdge c, ?_, rfl, rfl, hne, fun ch hch => (hdig ch hch).2,
      FormatUint_leading_zero c.ChannelId, parseDecimal_FormatUint c.ChannelId,
      rfl, rfl, rfl, fun h0 h1 => uint64_of_nonneg _ h0 h1, rfl⟩
    rw [hedges, List.mem_map]
    refine ⟨c, ?_, rfl⟩
    rw [List.mem_filter]
    exact ⟨hmem, decide_eq_true hc⟩
  · intro e he
    rw [hedges, List.mem_map] at he
    obtain ⟨d, hd, rfl⟩ := he
    rw [List.mem_filter] at hd
    exact ⟨d, hd.1, of_decide_eq_true hd.2, rfl, parseDecimal_FormatUint d.ChannelId⟩

/-- Witness for C9 on the scenario of the specification: channel 6, between the
emitted node B and itself, has its edge in the returned graph. -/
theorem buildGraph_edge_fields_witness :
    chan6 ∈ [chan5, chan6] ∧ ¬ OrphanedChannel [peerA, peerB] chan6 ∧
    (buildGraph (.ok ⟨"lnd"⟩) (.ok ⟨"B"⟩)
        (.ok { Nodes := [peerA, peerB], Edges := [chan5, chan6] })).1.Edges =
      [⟨"6", "B", "B", 2000, 0⟩] ∧
    isEdgeOrphaned (nodePass ⟨"B"⟩ [peerA, peerB]).2 chan6 = false ∧
    ∃ e ∈ (buildGraph (.ok ⟨"lnd"⟩) (.ok ⟨"B"⟩)
        (.ok { Nodes := [peerA, peerB], Edges := [chan5, chan6] })).1.Edges,
      e = mkGraphEdge chan6 ∧ parseDecimal e.Id = some 6 :=
  ⟨by decide, by decide, by decide,
    (buildGraph_edge_fields ⟨"lnd"⟩ ⟨"B"⟩ [peerA, peerB] [chan5, chan6] chan6
      (by decide) (by decide)).1,
    match (buildGraph_edge_fields ⟨"lnd"⟩ ⟨"B"⟩ [peerA, peerB] [chan5, chan6] chan6
      (by decide) (by decide)).2.2.1 with
    | ⟨e, he, heq, _, _, _, _, hparse, _⟩ => ⟨e, he, heq, hparse⟩⟩

/-- C10. `buildGraph` does not remove duplicates: on two records that are not
stubs and share the local identity key it returns two nodes with that `Id`, both
with `Mainstat` "true"; in general the number of returned nodes is the number of
peer records that are not stubs, counted with repetition. -/
theorem buildGraph_keeps_duplicates :
    (¬ Stub peerB ∧ ¬ Stub peerB2 ∧ peerB ≠ peerB2 ∧ peerB.PubKey = peerB2.PubKey ∧
      (buildGraph (.ok ⟨"lnd"⟩) (.ok ⟨"B"⟩) (.ok { Nodes := [peerB, peerB2], Edges := [] })).1.Nodes =
        [⟨"B", "Bob", 100, "true", "#fff"⟩, ⟨"B", "Bobby", 200, "true", ""⟩] ∧
      ((buildGraph (.ok ⟨"lnd"⟩) (.ok ⟨"B"⟩)
          (.ok { Nodes := [peerB, peerB2], Edges := [] })).1.Nodes.filter
        (fun n => decide (n.Mainstat = "true"))).length = 2) ∧
    (∀ (con : ClientConn) (nodeInfo : GetInfoResponse) (peers : List LightningNode)
      (chans : List ChannelEdge),
      (buildGraph (.ok con) (.ok nodeInfo)
          (.ok { Nodes := peers, Edges := chans })).1.Nodes.length =
        peers.countP (fun p => decide (¬ Stub p))) := by
  refine ⟨⟨by decide, by decide, by decide, rfl, by decide, by decide⟩, ?_⟩
  intro con nodeInfo peers chans
  change (builtGraph con nodeInfo peers chans).Nodes.length = _
  rw [builtGraph_nodes, List.length_map, ← List.countP_eq_length_filter]
  apply List.countP_congr
  intro p _
  rw [Bool.not_eq_true', skipNode_false_iff, decide_eq_true_eq]

end LndNodeGraph
